import Mathlib

/-!
Verification development for the `backup` tool: a shallow embedding of its
traversal/exclusion engine (walker.go), metrics and failure ledger
(metrics.go), digest pipeline (hasher), transfer pipeline with retry/backoff
(aws.go), reprocessing loader (walker.go) and the orchestrating `main`
(main.go), together with theorems settling the frozen claims about them.

Modelling conventions.

Paths: Go paths are strings built by `filepath.Walk` from base paths and
entry names joined with the platform separator.  We model a path as its
list of segments (`List String`), which is the same data; exclusion-rule
regular expressions, which the Go code matches against the rendered full
path, become opaque decidable predicates on the segment list.  Components
that never inspect path structure are polymorphic in the path type `α`.

Concurrency: per the program's design each record is owned by exactly one
worker while processed, phases are separated by join barriers, and a
worker's effect on a record depends only on that record and the outcome of
its own I/O.  A pool is therefore modelled by the per-record net effect of
whichever worker processed the record (or left it untouched after an
early exit on the error budget); a single worker consuming a whole queue is
modelled directly as structural recursion over the queue list.

I/O: filesystem and AWS calls are oracles passed in as functions
(`α → Option …`, `Nat → Bool` for the n-th put attempt, and so on).
`time.Sleep` is observable: the transfer worker returns the list of slept
durations (in whole seconds) in the order they occurred.  A Go `panic`
(out-of-range index) is a distinguished result constructor, not an error
return.
-/

set_option autoImplicit false

namespace Backup

/-- Mirrors `domain.FileInfo`: one record per filesystem entry, with the
path type `α` abstracted (Go uses `string`). `fullName`, `size`,
`excluded`, `hash`, `hashSuccess` (digestOk), `storageSuccess` (transferOk). -/
structure FileInfo (α : Type) where
  fullName : α
  size : Int
  excluded : Bool
  hash : String
  hashSuccess : Bool
  storageSuccess : Bool
  deriving DecidableEq, Repr

/-- Mirrors `domain.FileInfo.Copy`: a field-by-field copy of the record. -/
def FileInfo.copy {α : Type} (fi : FileInfo α) : FileInfo α :=
  { fullName := fi.fullName
    size := fi.size
    excluded := fi.excluded
    hash := fi.hash
    hashSuccess := fi.hashSuccess
    storageSuccess := fi.storageSuccess }

/-- Mirrors `domain.Exclusion`: a rule id plus the compiled regular
expression, modelled as an opaque decidable predicate on the full path
(the Go code calls `exclusion.Regex.MatchString(path)`). -/
structure Exclusion where
  id : Int
  regexMatch : List String → Bool

/-- Mirrors `strings.HasPrefix(name, ".")`: the first character of the
name is a dot (stated on the character list so it evaluates). -/
def startsWithDot (name : String) : Bool :=
  match name.data with
  | [] => false
  | c :: _ => c == '.'

/-- Mirrors `skipThisObject` (walker.go): hard-coded exclusion of
directories whose name starts with a dot, then the configured rules in
list (id) order against the full path; first match wins. -/
def skipThisObject (excl : List Exclusion) (path : List String)
    (isDir : Bool) (name : String) : Bool :=
  if isDir && startsWithDot name then true
  else excl.any (fun e => e.regexMatch path)

/-- A filesystem subtree as visited by `filepath.Walk`: files carry a size;
directories carry the size reported by `Stat` and an ordered child list. -/
inductive FsTree where
  | file (name : String) (size : Int)
  | dir (name : String) (size : Int) (children : List FsTree)
  deriving Repr

/-- Name of the root entry of a subtree. -/
def FsTree.name : FsTree → String
  | .file n _ => n
  | .dir n _ _ => n

/-- Fresh record as built at walker.go:35: excluded defaults to true,
digest and transfer fields at their zero values. -/
def mkRec (path : List String) (size : Int) (excluded : Bool) :
    FileInfo (List String) :=
  { fullName := path
    size := size
    excluded := excluded
    hash := ""
    hashSuccess := false
    storageSuccess := false }

mutual

/-- Mirrors the `filepath.Walk` callback in `buildFileList` (walker.go):
pre-order visit; an excluded directory is recorded and its subtree skipped
(`filepath.SkipDir`); an excluded file is recorded and skipped; an included
directory is recorded (its `excluded` field stays true) and its children
are visited; an included file is recorded with `excluded = false`. -/
def walkFrom (excl : List Exclusion) (path : List String) :
    FsTree → List (FileInfo (List String))
  | .file n sz =>
      if skipThisObject excl path false n then [mkRec path sz true]
      else [mkRec path sz false]
  | .dir n sz ch =>
      if skipThisObject excl path true n then [mkRec path sz true]
      else mkRec path sz true :: walkForest excl path ch

/-- Children of a directory at `path`, visited in order; each child is
walked at `path ++ [child name]`, as `filepath.Walk` extends the path. -/
def walkForest (excl : List Exclusion) (path : List String) :
    List FsTree → List (FileInfo (List String))
  | [] => []
  | c :: cs => walkFrom excl (path ++ [c.name]) c ++ walkForest excl path cs

end

/-- Mirrors `buildFileList` (walker.go): walk each base path in order and
concatenate the records.  A base path is given with the subtree rooted
there; walk errors (fatal in Go) are outside the error-free traversals the
claims quantify over. -/
def buildFileList (excl : List Exclusion) :
    List (List String × FsTree) → List (FileInfo (List String))
  | [] => []
  | (base, t) :: rest => walkFrom excl base t ++ buildFileList excl rest

/-- Looks up the node reached from `t` by following the given child names
(used only to state which tree position a claim talks about). -/
def lookupNode : FsTree → List String → Option FsTree
  | t, [] => some t
  | .file _ _, _ :: _ => none
  | .dir _ _ ch, a :: rest =>
      match ch.find? (fun c => c.name == a) with
      | some c => lookupNode c rest
      | none => none

/-- Pairwise-distinct strings, by direct recursion. -/
def namesNodup : List String → Bool
  | [] => true
  | n :: rest => !(rest.any (fun m => m == n)) && namesNodup rest

mutual

/-- Well-formed subtree: sibling names are pairwise distinct at every
directory (true of any real directory tree, where names are unique). -/
def wfTree : FsTree → Bool
  | .file _ _ => true
  | .dir _ _ ch => namesNodup (ch.map FsTree.name) && wfForest ch

/-- All trees of the forest are well-formed. -/
def wfForest : List FsTree → Bool
  | [] => true
  | c :: cs => wfTree c && wfForest cs

end

/-- Mirrors `displayFileStats` (metrics.go): iterate the inventory and
collect the records with `excluded == false` into the list of objects to
store (the stats it logs are not modelled). -/
def displayFileStats {α : Type} (objectsList : List (FileInfo α)) :
    List (FileInfo α) :=
  objectsList.filter (fun o => !o.excluded)

/-- Mirrors `displayBadHashes` (metrics.go): count records with
`!Excluded && !HashSuccess` and report whether the count reaches the
configured `MaxAllowedHashFailures` (`failedHashCount >= max`). -/
def displayBadHashes {α : Type} (maxAllowedHashFailures : Int)
    (objectsList : List (FileInfo α)) : Bool :=
  decide (maxAllowedHashFailures ≤
    (objectsList.countP (fun fi => !fi.excluded && !fi.hashSuccess) : Int))

/-- Mirrors `domain.BackupFailures` as constructed in `displayStorageStats`
(metrics.go) and consumed in `buildReprocessingList` (walker.go): the
failure manifest written after a run. -/
structure BackupFailures (α : Type) where
  bucket : String
  dateCreated : String
  hasFailures : Bool
  failedPaths : List (FileInfo α)
  deriving DecidableEq, Repr

/-- The selection loop of `displayStorageStats` (metrics.go): skip
`excluded` records; a non-excluded record with `StorageSuccess == false`
contributes a `Copy` of itself, in inventory order. -/
def storageFailures {α : Type} : List (FileInfo α) → List (FileInfo α)
  | [] => []
  | o :: rest =>
      if o.excluded then storageFailures rest
      else if o.storageSuccess then storageFailures rest
      else o.copy :: storageFailures rest

/-- Mirrors `displayStorageStats` (metrics.go): build the manifest from the
full inventory; `HasFailures` is set exactly when at least one failed
record was appended. -/
def displayStorageStats {α : Type} (bucket dateCreated : String)
    (objectsList : List (FileInfo α)) : BackupFailures α :=
  let fp := storageFailures objectsList
  { bucket := bucket
    dateCreated := dateCreated
    hasFailures := !fp.isEmpty
    failedPaths := fp }

/-- Outcome of hashing one file, as an oracle result: `none` is an I/O
error (open or read), `some h` the base64 MD5 digest. -/
def hashApply {α : Type} (hashOracle : α → Option String)
    (fi : FileInfo α) : FileInfo α :=
  match hashOracle fi.fullName with
  | none => { fi with hashSuccess := false }
  | some h => { fi with hash := h, hashSuccess := true }

/-- Mirrors `hashFilesInChannel` (hasher): one worker draining the channel.
Every dequeued record is hashed — there is no test of `excluded` — and on
error the worker's local error counter grows; once it exceeds
`maxAllowedErrors` the worker stops, leaving the remaining channel records
untouched (with a single worker nobody else picks them up). -/
def hashFilesInChannel {α : Type} (maxAllowedErrors : Int)
    (hashOracle : α → Option String) :
    Int → List (FileInfo α) → List (FileInfo α)
  | _, [] => []
  | errCount, fi :: rest =>
      let fi' := hashApply hashOracle fi
      let errCount' := match hashOracle fi.fullName with
        | none => errCount + 1
        | some _ => errCount
      if errCount' > maxAllowedErrors then fi' :: rest
      else fi' :: hashFilesInChannel maxAllowedErrors hashOracle errCount' rest

/-- Mirrors the channel-loading loop of `hashAllFiles` (hasher): every
record of the list handed to the digest phase is put on the channel, with
no filtering of any kind. -/
def hashChannelContents {α : Type} (objectsList : List (FileInfo α)) :
    List (FileInfo α) :=
  objectsList

/-- Result of the per-record retry loop of `storeFilesInChannel` (aws.go):
did the record store, how many `PutObject` attempts were made, and the
backoff sleeps (in whole seconds) in the order they happened. -/
structure PutResult where
  success : Bool
  attempts : Nat
  sleeps : List Nat
  deriving DecidableEq, Repr

/-- Mirrors the retry loop at aws.go:165-193. `put n` is the outcome of the
n-th `PutObject` attempt (1-based). `errCount` is `storageErrorCount`; the
loop runs while `errCount < allowed`; on failure the counter grows and, if
still below `allowed`, the worker sleeps `2^errCount` seconds before the
next attempt; on success it leaves at once.  The unreachable entry case
`errCount ≥ allowed` mirrors Go's nil `storageErr`, i.e. success with zero
attempts. -/
def storeRetryLoop (allowed : Int) (put : Nat → Bool) :
    Int → Nat → PutResult
  | errCount, n =>
      if h : errCount < allowed then
        if put n then { success := true, attempts := 1, sleeps := [] }
        else
          if allowed ≤ errCount + 1 then
            { success := false, attempts := 1, sleeps := [] }
          else
            let r := storeRetryLoop allowed put (errCount + 1) (n + 1)
            { success := r.success
              attempts := r.attempts + 1
              sleeps := 2 ^ (errCount + 1).toNat :: r.sleeps }
      else { success := true, attempts := 0, sleeps := [] }
termination_by errCount _ => (allowed - errCount).toNat
decreasing_by omega

/-- Mirrors aws.go:157-202 for one record: `StorageRetryCount` clamped up
to 1 (`if allowedStorageAttempts <= 0 { allowedStorageAttempts = 1 }`),
then the retry loop starting with zero failures at attempt 1. -/
def storeFile (storageRetryCount : Int) (put : Nat → Bool) : PutResult :=
  let allowed := if storageRetryCount ≤ 0 then 1 else storageRetryCount
  storeRetryLoop allowed put 0 1

/-- Mirrors `storeFilesInChannel` (aws.go): one worker draining the
channel.  Open failure marks the record failed and counts an error;
otherwise the retry loop runs and the record's `StorageSuccess` is set
from its outcome (an exhausted record also counts an error).  When the
local error count exceeds `maxAllowedErrors` the worker stops, leaving the
rest of the channel untouched.  Returns the records in channel order plus
the concatenated backoff sleeps. -/
def storeFilesInChannel {α : Type} (maxAllowedErrors : Int)
    (storageRetryCount : Int) (openOracle : α → Bool)
    (putOracle : α → Nat → Bool) :
    Int → List (FileInfo α) → List (FileInfo α) × List Nat
  | _, [] => ([], [])
  | errCount, fi :: rest =>
      if openOracle fi.fullName then
        let r := storeFile storageRetryCount (putOracle fi.fullName)
        let fi' := { fi with storageSuccess := r.success }
        let errCount' := if r.success then errCount else errCount + 1
        if errCount' > maxAllowedErrors then (fi' :: rest, r.sleeps)
        else
          let rec' := storeFilesInChannel maxAllowedErrors storageRetryCount
            openOracle putOracle errCount' rest
          (fi' :: rec'.1, r.sleeps ++ rec'.2)
      else
        let fi' := { fi with storageSuccess := false }
        let errCount' := errCount + 1
        if errCount' > maxAllowedErrors then (fi' :: rest, [])
        else
          let rec' := storeFilesInChannel maxAllowedErrors storageRetryCount
            openOracle putOracle errCount' rest
          (fi' :: rec'.1, rec'.2)

/-- Outcome of the reprocessing confirmation menu (walker.go:120-152): the
loop ends only by choice 2 (proceed) or choice 3 (cancel); listing and
invalid input re-display the menu. -/
inductive MenuChoice where
  | proceed
  | cancel
  deriving DecidableEq, Repr

/-- The stat-and-rebuild loop of `buildReprocessingList` (walker.go:157-172):
for each listed failure, in order, a fresh record with the listed path,
`Excluded = false`, emptied digest/transfer fields, and the size from a
fresh `os.Stat`; the first stat failure aborts the whole load. -/
def mapStat {α : Type} (statOracle : α → Option Int) :
    List (FileInfo α) → Except String (List (FileInfo α))
  | [] => .ok []
  | f :: rest =>
      match statOracle f.fullName with
      | none => .error "unable to stat file"
      | some sz =>
          match mapStat statOracle rest with
          | .error e => .error e
          | .ok l =>
              .ok ({ fullName := f.fullName, size := sz, excluded := false,
                     hash := "", hashSuccess := false,
                     storageSuccess := false } :: l)

/-- Mirrors `buildReprocessingList` (walker.go): the manifest read/parse
result is passed in (`Except.error` for an unreadable or unparseable
failures file, with Go's wrapped message abstracted to the payload); a
manifest without failures yields an empty list; unless bypassed by
`noConfirm`, a cancel choice also yields an empty list; otherwise each
listed path is re-stat'ed into a fresh record. -/
def buildReprocessingList {α : Type} (noConfirm : Bool)
    (manifestLoad : Except String (BackupFailures α)) (choice : MenuChoice)
    (statOracle : α → Option Int) : Except String (List (FileInfo α)) :=
  match manifestLoad with
  | .error e => .error e
  | .ok failures =>
      if !failures.hasFailures then .ok []
      else if !noConfirm && choice = MenuChoice.cancel then .ok []
      else mapStat statOracle failures.failedPaths

/-- The constant `dryrunSampleFileListLength` (aws.go). -/
def dryrunSampleFileListLength : Nat := 25

/-- Result of `handleDryrun` (aws.go): a fatal error return, a successful
run reporting the sampled paths, or a Go runtime panic from indexing past
the end of the objects list. -/
inductive DryrunResult (α : Type) where
  | panic
  | fatalError (msg : String)
  | ok (sample : List α)
  deriving DecidableEq, Repr

/-- The sample loop at aws.go:275-277: reads `objectsList[i]` for
`i = 0 … 24` unconditionally; an index past the end is a runtime panic,
modelled as `none`. -/
def dryrunSample {α : Type} (objectsList : List (FileInfo α)) :
    Option (List α) :=
  (List.range dryrunSampleFileListLength).mapM
    (fun i => (objectsList[i]?).map (fun o => o.fullName))

/-- Mirrors `handleDryrun` (aws.go): list the buckets (an error is fatal),
require the configured dryrun bucket to be among them (else fatal), then
print the first 25 entries of the objects list.  No record is written to:
in particular no `StorageSuccess` field is mutated. -/
def handleDryrun {α : Type} (dryrunBucket : String)
    (listBucketsResult : Option (List String))
    (objectsList : List (FileInfo α)) : DryrunResult α :=
  match listBucketsResult with
  | none => .fatalError "unable to list AWS buckets"
  | some buckets =>
      if buckets.contains dryrunBucket then
        match dryrunSample objectsList with
        | none => .panic
        | some sample => .ok sample
      else .fatalError "unable to locate dryrun bucket"

/-- Net effect of the digest pool on one record it dequeued: left
untouched (a worker early-exit drained nothing more and no worker reached
it), failed to hash, or hashed to `h`. -/
inductive DigestOutcome where
  | untouched
  | failed
  | hashed (h : String)

/-- Applies a digest outcome to a record exactly as `hashFilesInChannel`
writes it: only `Hash` and `HashSuccess` are ever written. -/
def applyDigestNet {α : Type} (net : FileInfo α → DigestOutcome)
    (o : FileInfo α) : FileInfo α :=
  match net o with
  | .untouched => o
  | .failed => { o with hashSuccess := false }
  | .hashed h => { o with hash := h, hashSuccess := true }

/-- Net effect of the transfer pool on one record it dequeued. -/
inductive StoreOutcome where
  | untouched
  | failed
  | stored

/-- Applies a transfer outcome to a record exactly as
`storeFilesInChannel` writes it: only `StorageSuccess` is ever written. -/
def applyStoreNet {α : Type} (net : FileInfo α → StoreOutcome)
    (o : FileInfo α) : FileInfo α :=
  match net o with
  | .untouched => o
  | .failed => { o with storageSuccess := false }
  | .stored => { o with storageSuccess := true }

/-- In-place effect of `hashAllFiles` on the shared inventory: the digest
channel holds exactly the records of `objectsToStore` (the non-excluded
ones), so excluded records are never touched; each channel record ends in
its per-record outcome. -/
def digestPhase {α : Type} (net : FileInfo α → DigestOutcome)
    (inv : List (FileInfo α)) : List (FileInfo α) :=
  inv.map (fun o => if o.excluded then o else applyDigestNet net o)

/-- In-place effect of `writeAllObjectsToS3` on the shared inventory: the
transfer channel is loaded from `objectsToStore` skipping records with
`!HashSuccess`, so only non-excluded, hashed records are touched. -/
def storePhase {α : Type} (net : FileInfo α → StoreOutcome)
    (inv : List (FileInfo α)) : List (FileInfo α) :=
  inv.map (fun o => if !o.excluded && o.hashSuccess then applyStoreNet net o else o)

/-- The keys of `awsRegionToLocationConstraintMap` (aws.go:27): regions
other than us-east-1 with a known location constraint. -/
def awsRegionKeys : List String := ["us-east-2"]

/-- The configuration values `main` and the pipelines consult, mirroring
the relevant getters of `domain.Config`. -/
structure RunConfig where
  dryrun : Bool
  reprocess : Bool
  noConfirm : Bool
  maxAllowedHashFailures : Int
  maxHashChannelErrorCount : Int
  maxStorageChannelErrorCount : Int
  storageRetryCount : Int
  bucket : String
  dryrunBucket : String
  region : String
  deriving Repr

/-- Observable outcome of a run of `main`: the process exit code, whether
the destination bucket was created, whether the transfer pool was
launched, and the manifest handed to `writeFailureFile` (if any) — or a
runtime panic. -/
inductive RunTrace (α : Type) where
  | panicked
  | exited (exitCode : Nat) (containerCreated : Bool)
      (transferStarted : Bool) (manifestWritten : Option (BackupFailures α))
  deriving DecidableEq, Repr

/-- Mirrors `main` (main.go) end to end.  The inventory comes from
`buildReprocessingList` when reprocessing (note main checks for an empty
list, exiting 0, *before* it checks the error), else from `buildFileList`
(its result passed in as `buildFileListResult`).  `displayFileStats` trims
the excluded records; unless this is a dryrun the digest pool runs over
the trimmed list and the bad-hash gate may abort the run before any AWS
call; `writeObjectsToAws` then either runs the dryrun path or creates the
bucket and launches the transfer pool; finally, on every non-dryrun run
that got this far, `displayStorageStats` over the full (mutated) inventory
is passed to `writeFailureFile`. -/
def mainRun {α : Type} (cfg : RunConfig)
    (buildFileListResult : Except String (List (FileInfo α)))
    (manifestLoad : Except String (BackupFailures α)) (choice : MenuChoice)
    (statOracle : α → Option Int)
    (digestNet : FileInfo α → DigestOutcome)
    (storeNet : FileInfo α → StoreOutcome)
    (awsConfigOk : Bool) (listBucketsResult : Option (List String))
    (createBucketOk : Bool) (dateCreated : String) : RunTrace α :=
  let buildRes :=
    if cfg.reprocess then
      buildReprocessingList cfg.noConfirm manifestLoad choice statOracle
    else buildFileListResult
  let allObjects0 := match buildRes with | .ok l => l | .error _ => []
  if cfg.reprocess && allObjects0.isEmpty then
    .exited 0 false false none
  else
    match buildRes with
    | .error _ => .exited 1 false false none
    | .ok allObjects =>
        let digestedAll :=
          if cfg.dryrun then allObjects else digestPhase digestNet allObjects
        let objectsToStore := displayFileStats digestedAll
        if !cfg.dryrun &&
            displayBadHashes cfg.maxAllowedHashFailures objectsToStore then
          .exited 1 false false none
        else if !awsConfigOk then .exited 1 false false none
        else if cfg.dryrun then
          match handleDryrun cfg.dryrunBucket listBucketsResult objectsToStore with
          | .panic => .panicked
          | .fatalError _ => .exited 1 false false none
          | .ok _ => .exited 0 false false none
        else if cfg.region ≠ "us-east-1" && !(awsRegionKeys.contains cfg.region) then
          .exited 1 false false none
        else if !createBucketOk then .exited 1 false false none
        else
          let storedAll := storePhase storeNet digestedAll
          .exited 0 true true
            (some (displayStorageStats cfg.bucket dateCreated storedAll))

/-- Splitting off the first element of a mapped range. -/
theorem range_map_succ_shift (f : Nat → Nat) (k : Nat) :
    (List.range (k + 1)).map f = f 0 :: (List.range k).map (fun i => f (i + 1)) := by
  rw [List.range_succ_eq_map]
  simp [List.map_map, Function.comp]

/-- Retry loop, failing runs: if every attempt fails, entering the loop
with `errCount = j` and `r = allowed - j > 0` attempts still permitted
performs exactly `r` attempts, sleeping `2^(j+1), …, 2^(j+r-1)` seconds
between them, and reports failure. -/
theorem storeRetryLoop_all_fail (allowed : Int) (put : Nat → Bool)
    (hput : ∀ n, put n = false) :
    ∀ (r j : Nat), 0 < r → (j : Int) + r = allowed →
      storeRetryLoop allowed put (j : Int) (j + 1) =
        { success := false, attempts := r,
          sleeps := (List.range (r - 1)).map (fun i => 2 ^ (j + 1 + i)) } := by
  intro r
  induction r with
  | zero => intro j h0; omega
  | succ r ih =>
      intro j _ hall
      rw [storeRetryLoop]
      have hc : (j : Int) < allowed := by omega
      rw [dif_pos hc, hput (j + 1)]
      simp only [Bool.false_eq_true, if_false]
      by_cases hr : r = 0
      · subst hr
        have hle : allowed ≤ (j : Int) + 1 := by omega
        rw [if_pos hle]
        simp
      · have hle : ¬ (allowed ≤ (j : Int) + 1) := by omega
        rw [if_neg hle]
        have hcast : (j : Int) + 1 = ((j + 1 : Nat) : Int) := by push_cast; ring
        rw [hcast, ih (j + 1) (by omega) (by push_cast at hall ⊢; omega)]
        have htn : (((j + 1 : Nat) : Int)).toNat = j + 1 := by omega
        have e1 : r + 1 - 1 = r := by omega
        have e2 : r - 1 + 1 = r := by omega
        have hr' : r = r - 1 + 1 := by omega
        simp only [htn, e1]
        congr 1
        conv_rhs => rw [hr', range_map_succ_shift (fun i => 2 ^ (j + 1 + i)) (r - 1)]
        simp only [Nat.add_zero, e2]
        refine congrArg₂ _ rfl (List.map_congr_left ?_)
        intro i _
        ring_nf

/-- Retry loop, eventually-successful runs: if the next `k` attempts fail
and attempt `j + 1 + k` succeeds, with room for them in the budget, the
loop performs `k + 1` attempts with sleeps `2^(j+1), …, 2^(j+k)` and
reports success. -/
theorem storeRetryLoop_fail_then_ok (allowed : Int) (put : Nat → Bool) :
    ∀ (k j : Nat), (∀ i, i < k → put (j + 1 + i) = false) →
      put (j + 1 + k) = true → (j : Int) + k < allowed →
      storeRetryLoop allowed put (j : Int) (j + 1) =
        { success := true, attempts := k + 1,
          sleeps := (List.range k).map (fun i => 2 ^ (j + 1 + i)) } := by
  intro k
  induction k with
  | zero =>
      intro j _ hs hroom
      rw [storeRetryLoop]
      have hc : (j : Int) < allowed := by omega
      rw [dif_pos hc]
      simp only [Nat.add_zero] at hs
      rw [hs]
      simp
  | succ k ih =>
      intro j hf hs hroom
      rw [storeRetryLoop]
      have hc : (j : Int) < allowed := by omega
      rw [dif_pos hc]
      have hpj : put (j + 1) = false := by simpa using hf 0 (by omega)
      rw [hpj]
      simp only [Bool.false_eq_true, if_false]
      have hle : ¬ (allowed ≤ (j : Int) + 1) := by omega
      rw [if_neg hle]
      have hcast : (j : Int) + 1 = ((j + 1 : Nat) : Int) := by push_cast; ring
      rw [hcast,
        ih (j + 1)
          (fun i hi => by
            have h2 := hf (i + 1) (by omega)
            have e : j + 1 + (i + 1) = j + 1 + 1 + i := by omega
            rwa [e] at h2)
          (by
            have e : j + 1 + (k + 1) = j + 1 + 1 + k := by omega
            rwa [e] at hs)
          (by push_cast at hroom ⊢; omega)]
      have htn : (((j + 1 : Nat) : Int)).toNat = j + 1 := by omega
      simp only [htn]
      congr 1
      rw [range_map_succ_shift (fun i => 2 ^ (j + 1 + i)) k]
      simp only [Nat.add_zero]
      refine congrArg₂ _ rfl (List.map_congr_left ?_)
      intro i _
      ring_nf

/-- A worker handed the one-record channel `[fi]` whose file opens: the
record's final `StorageSuccess` and the observed sleeps are exactly those
of its retry loop, whatever the error budget. -/
theorem storeWorker_single {α : Type} (maxErr retryCfg : Int)
    (openOracle : α → Bool) (putOracle : α → Nat → Bool) (c : Int)
    (fi : FileInfo α) (hopen : openOracle fi.fullName = true) :
    storeFilesInChannel maxErr retryCfg openOracle putOracle c [fi] =
      ([{ fi with storageSuccess := (storeFile retryCfg (putOracle fi.fullName)).success }],
        (storeFile retryCfg (putOracle fi.fullName)).sleeps) := by
  rw [storeFilesInChannel]
  rw [hopen]
  simp [storeFilesInChannel]

/-- Rewriting the sleep exponents into claim order. -/
theorem map_pow_exponent_comm (m : Nat) :
    (List.range m).map (fun i => 2 ^ (0 + 1 + i)) =
      (List.range m).map (fun i => 2 ^ (i + 1)) :=
  List.map_congr_left (fun i _ => by ring_nf)

/-- Claim C1: an eligible record whose put fails the first `k < maxAttempts`
times and then succeeds ends with `transferOk = true` after exactly `k`
backoff sleeps of `2^1, …, 2^k` seconds between attempts (none before the
first attempt, none after the terminating one — the returned sleep list is
exactly the in-order record of the loop's sleeps); a record whose put
fails every time gets exactly `maxAttempts` attempts and ends with
`transferOk = false`. -/
theorem c1_retry_backoff {α : Type} (maxAttempts maxErr : Int)
    (put1 put2 : Nat → Bool) (k : Nat) (fi gi : FileInfo α)
    (openOracle : α → Bool)
    (hk : (k : Int) < maxAttempts)
    (hfail : ∀ i, 1 ≤ i → i ≤ k → put1 i = false)
    (hsucc : put1 (k + 1) = true)
    (hall : ∀ n, put2 n = false)
    (hopen1 : openOracle fi.fullName = true)
    (hopen2 : openOracle gi.fullName = true) :
    storeFilesInChannel maxErr maxAttempts openOracle (fun _ => put1) 0 [fi] =
      ([{ fi with storageSuccess := true }],
        (List.range k).map (fun i => 2 ^ (i + 1)))
    ∧ (storeFile maxAttempts put2).attempts = maxAttempts.toNat
    ∧ storeFilesInChannel maxErr maxAttempts openOracle (fun _ => put2) 0 [gi] =
      ([{ gi with storageSuccess := false }],
        (List.range (maxAttempts.toNat - 1)).map (fun i => 2 ^ (i + 1))) := by
  have hpos : 0 < maxAttempts := by omega
  have hstore1 : storeFile maxAttempts put1 =
      { success := true, attempts := k + 1,
        sleeps := (List.range k).map (fun i => 2 ^ (i + 1)) } := by
    rw [storeFile]
    simp only [if_neg (by omega : ¬ maxAttempts ≤ 0)]
    have h0 : ((0 : Nat) : Int) = (0 : Int) := by norm_num
    rw [← h0, show 1 = 0 + 1 from rfl]
    rw [storeRetryLoop_fail_then_ok maxAttempts put1 k 0
      (fun i hi => by
        have h2 := hfail (i + 1) (by omega) (by omega)
        have e : i + 1 = 0 + 1 + i := by omega
        rwa [e] at h2)
      (by
        have e : k + 1 = 0 + 1 + k := by omega
        rwa [e] at hsucc)
      (by push_cast; omega)]
    rw [map_pow_exponent_comm]
  have hstore2 : storeFile maxAttempts put2 =
      { success := false, attempts := maxAttempts.toNat,
        sleeps := (List.range (maxAttempts.toNat - 1)).map (fun i => 2 ^ (i + 1)) } := by
    rw [storeFile]
    simp only [if_neg (by omega : ¬ maxAttempts ≤ 0)]
    have h0 : ((0 : Nat) : Int) = (0 : Int) := by norm_num
    rw [← h0, show 1 = 0 + 1 from rfl]
    rw [storeRetryLoop_all_fail maxAttempts put2 hall maxAttempts.toNat 0
      (by omega) (by omega)]
    rw [map_pow_exponent_comm]
  refine ⟨?_, ?_, ?_⟩
  · rw [storeWorker_single maxErr maxAttempts openOracle (fun _ => put1) 0 fi hopen1]
    rw [hstore1]
  · rw [hstore2]
  · rw [storeWorker_single maxErr maxAttempts openOracle (fun _ => put2) 0 gi hopen2]
    rw [hstore2]

/-- Witness for C1 at `maxAttempts = 5`, `k = 2`: a put succeeding from
attempt 3 on yields success with sleeps `[2, 4]`; an always-failing put
yields 5 attempts and failure with sleeps `[2, 4, 8, 16]`. -/
theorem c1_retry_backoff_witness :
    storeFilesInChannel (α := String) 25 5 (fun _ => true)
        (fun _ n => decide (3 ≤ n)) 0
        [{ fullName := "a", size := 1, excluded := false, hash := "h",
           hashSuccess := true, storageSuccess := false }] =
      ([{ fullName := "a", size := 1, excluded := false, hash := "h",
          hashSuccess := true, storageSuccess := true }],
        (List.range 2).map (fun i => 2 ^ (i + 1)))
    ∧ (storeFile 5 (fun _ => false)).attempts = (5 : Int).toNat
    ∧ storeFilesInChannel (α := String) 25 5 (fun _ => true)
        (fun _ _ => false) 0
        [{ fullName := "b", size := 2, excluded := false, hash := "g",
           hashSuccess := true, storageSuccess := false }] =
      ([{ fullName := "b", size := 2, excluded := false, hash := "g",
          hashSuccess := true, storageSuccess := false }],
        (List.range ((5 : Int).toNat - 1)).map (fun i => 2 ^ (i + 1))) :=
  c1_retry_backoff 5 25 (fun n => decide (3 ≤ n)) (fun _ => false) 2
    { fullName := "a", size := 1, excluded := false, hash := "h",
      hashSuccess := true, storageSuccess := false }
    { fullName := "b", size := 2, excluded := false, hash := "g",
      hashSuccess := true, storageSuccess := false }
    (fun _ => true) (by decide)
    (fun i h1 h2 => decide_eq_false (by omega))
    (by decide) (fun _ => rfl) rfl rfl

/-- Claim C10: with `StorageRetryCount` zero or negative the attempt limit
is clamped up to 1, so a dequeued eligible record gets exactly one put
attempt, no sleeps, and its final `transferOk` reflects that attempt. -/
theorem c10_clamped_single_attempt {α : Type} (retryCfg maxErr : Int)
    (put : Nat → Bool) (fi : FileInfo α) (openOracle : α → Bool)
    (hneg : retryCfg ≤ 0) (hopen : openOracle fi.fullName = true) :
    storeFile retryCfg put = { success := put 1, attempts := 1, sleeps := [] }
    ∧ storeFilesInChannel maxErr retryCfg openOracle (fun _ => put) 0 [fi] =
      ([{ fi with storageSuccess := put 1 }], []) := by
  have hstore : storeFile retryCfg put =
      { success := put 1, attempts := 1, sleeps := [] } := by
    rw [storeFile]
    simp only [if_pos hneg]
    rw [storeRetryLoop]
    rw [dif_pos (by omega : (0 : Int) < 1)]
    cases hput : put 1 with
    | true => simp
    | false =>
        rw [if_pos (by omega : (1 : Int) ≤ 0 + 1)]
        simp
  refine ⟨hstore, ?_⟩
  rw [storeWorker_single maxErr retryCfg openOracle (fun _ => put) 0 fi hopen]
  rw [hstore]

/-- Witness for C10 at `StorageRetryCount = -3`: one attempt, which
succeeds, and no sleeps. -/
theorem c10_clamped_single_attempt_witness :
    storeFile (-3) (fun _ => true) =
      { success := (fun _ : Nat => true) 1, attempts := 1, sleeps := [] }
    ∧ storeFilesInChannel (α := String) 25 (-3) (fun _ => true)
        (fun _ _ => true) 0
        [{ fullName := "a", size := 1, excluded := false, hash := "h",
           hashSuccess := true, storageSuccess := false }] =
      ([{ fullName := "a", size := 1, excluded := false, hash := "h",
          hashSuccess := true, storageSuccess := (fun _ : Nat => true) 1 }], []) :=
  c10_clamped_single_attempt (-3) 25 (fun _ => true)
    { fullName := "a", size := 1, excluded := false, hash := "h",
      hashSuccess := true, storageSuccess := false }
    (fun _ => true) (by decide) rfl

/-- When every listed path stats, the rebuild loop yields one fresh record
per listed entry, in order. -/
theorem mapStat_all_ok {α : Type} (statOracle : α → Option Int) (szf : α → Int) :
    ∀ l : List (FileInfo α),
      (∀ f ∈ l, statOracle f.fullName = some (szf f.fullName)) →
      mapStat statOracle l = .ok (l.map (fun f =>
        { fullName := f.fullName, size := szf f.fullName, excluded := false,
          hash := "", hashSuccess := false, storageSuccess := false })) := by
  intro l
  induction l with
  | nil => intro _; rfl
  | cons f rest ih =>
      intro h
      rw [mapStat, h f (by simp), ih (fun g hg => h g (by simp [hg]))]
      simp

/-- Claim C4: loading a manifest with `hasFailures = true` and N entries,
with confirmation bypassed or answered proceed and every listed path
stat-able, yields exactly N fresh records in order — same path, size from
the fresh stat, `excluded = false`, digest and transfer fields unset; a
manifest with `hasFailures = false` yields zero records as a normal
outcome, and so does a cancel choice. -/
theorem c4_reprocessing_roundtrip {α : Type} (failures : BackupFailures α)
    (noConfirm : Bool) (choice : MenuChoice) (statOracle : α → Option Int)
    (szf : α → Int)
    (hhf : failures.hasFailures = true)
    (hgo : noConfirm = true ∨ choice = MenuChoice.proceed)
    (hstat : ∀ f ∈ failures.failedPaths,
      statOracle f.fullName = some (szf f.fullName)) :
    buildReprocessingList noConfirm (.ok failures) choice statOracle =
      .ok (failures.failedPaths.map (fun f =>
        { fullName := f.fullName, size := szf f.fullName, excluded := false,
          hash := "", hashSuccess := false, storageSuccess := false }))
    ∧ (∀ f2 : BackupFailures α, f2.hasFailures = false →
        buildReprocessingList noConfirm (.ok f2) choice statOracle = .ok [])
    ∧ (∀ f3 : BackupFailures α, f3.hasFailures = true →
        buildReprocessingList false (.ok f3) MenuChoice.cancel statOracle = .ok []) := by
  refine ⟨?_, ?_, ?_⟩
  · have hm := mapStat_all_ok statOracle szf failures.failedPaths hstat
    rcases hgo with hnc | hpr
    · simp [buildReprocessingList, hhf, hnc, hm]
    · simp [buildReprocessingList, hhf, hpr, hm]
  · intro f2 h2
    simp [buildReprocessingList, h2]
  · intro f3 h3
    simp [buildReprocessingList, h3]

/-- Witness for C4: a two-entry manifest reloads to two fresh records with
freshly stat'ed sizes; a no-failure manifest and a cancel both reload to
the empty list. -/
theorem c4_reprocessing_roundtrip_witness :
    buildReprocessingList (α := String) true
        (.ok { bucket := "b", dateCreated := "d", hasFailures := true,
               failedPaths :=
                 [{ fullName := "p", size := 1, excluded := false, hash := "h",
                    hashSuccess := true, storageSuccess := false },
                  { fullName := "q", size := 2, excluded := false, hash := "",
                    hashSuccess := false, storageSuccess := false }] })
        MenuChoice.proceed (fun _ => some 7) =
      .ok [{ fullName := "p", size := 7, excluded := false, hash := "",
             hashSuccess := false, storageSuccess := false },
           { fullName := "q", size := 7, excluded := false, hash := "",
             hashSuccess := false, storageSuccess := false }]
    ∧ (∀ f2 : BackupFailures String, f2.hasFailures = false →
        buildReprocessingList true (.ok f2) MenuChoice.proceed (fun _ => some 7) = .ok [])
    ∧ (∀ f3 : BackupFailures String, f3.hasFailures = true →
        buildReprocessingList false (.ok f3) MenuChoice.cancel (fun _ => some 7) = .ok []) :=
  c4_reprocessing_roundtrip
    { bucket := "b", dateCreated := "d", hasFailures := true,
      failedPaths :=
        [{ fullName := "p", size := 1, excluded := false, hash := "h",
           hashSuccess := true, storageSuccess := false },
         { fullName := "q", size := 2, excluded := false, hash := "",
           hashSuccess := false, storageSuccess := false }] }
    true MenuChoice.proceed (fun _ => some 7) (fun _ => 7)
    rfl (Or.inl rfl) (fun _ _ => rfl)

/-- Claim C9 (corrected): a manifest load failure makes
`buildReprocessingList` return an error and a nil list, but `main` tests
the empty list first and exits 0 ("nothing to reprocess") — deliberately,
per the comment at main.go:48 — so the error is never fatal: no container,
no transfer, no manifest write, exit status zero. -/
theorem c9_manifest_error_exit_zero {α : Type} (cfg : RunConfig) (e : String)
    (buildFileListResult : Except String (List (FileInfo α)))
    (choice : MenuChoice) (statOracle : α → Option Int)
    (digestNet : FileInfo α → DigestOutcome)
    (storeNet : FileInfo α → StoreOutcome)
    (awsConfigOk : Bool) (listBucketsResult : Option (List String))
    (createBucketOk : Bool) (dateCreated : String)
    (hrep : cfg.reprocess = true) :
    buildReprocessingList (α := α) cfg.noConfirm (.error e) choice statOracle = .error e
    ∧ mainRun cfg buildFileListResult (.error e) choice statOracle digestNet
        storeNet awsConfigOk listBucketsResult createBucketOk dateCreated =
      .exited 0 false false none := by
  refine ⟨rfl, ?_⟩
  simp [mainRun, hrep, buildReprocessingList]

/-- Counterexample to C9 as stated: with reprocessing requested and the
manifest unreadable, the run exits with status 0 (and does nothing), not
with a non-zero status as the claim requires. -/
theorem c9_counterexample :
    mainRun (α := String)
      { dryrun := false, reprocess := true, noConfirm := true,
        maxAllowedHashFailures := 25, maxHashChannelErrorCount := 25,
        maxStorageChannelErrorCount := 25, storageRetryCount := 5,
        bucket := "b", dryrunBucket := "d", region := "us-east-2" }
      (.ok []) (.error "unable to read JSON failures file")
      MenuChoice.proceed (fun _ => none) (fun _ => .untouched)
      (fun _ => .untouched) true (some []) true "t" =
      .exited 0 false false none := by
  simp [mainRun, buildReprocessingList]

/-- Witness for C9 (amended) at a concrete configuration. -/
theorem c9_manifest_error_exit_zero_witness :
    buildReprocessingList (α := String) false (.error "boom")
        MenuChoice.cancel (fun _ => some 0) = .error "boom"
    ∧ mainRun (α := String)
        { dryrun := false, reprocess := true, noConfirm := false,
          maxAllowedHashFailures := 25, maxHashChannelErrorCount := 25,
          maxStorageChannelErrorCount := 25, storageRetryCount := 5,
          bucket := "b", dryrunBucket := "d", region := "us-east-2" }
        (.ok []) (.error "boom") MenuChoice.cancel (fun _ => some 0)
        (fun _ => .untouched) (fun _ => .untouched) true (some []) true "t" =
      .exited 0 false false none :=
  c9_manifest_error_exit_zero
    { dryrun := false, reprocess := true, noConfirm := false,
      maxAllowedHashFailures := 25, maxHashChannelErrorCount := 25,
      maxStorageChannelErrorCount := 25, storageRetryCount := 5,
      bucket := "b", dryrunBucket := "d", region := "us-east-2" }
    "boom" (.ok []) MenuChoice.cancel (fun _ => some 0)
    (fun _ => .untouched) (fun _ => .untouched) true (some []) true "t" rfl

/-- Trimming the excluded records first does not change the bad-hash
count: the gate over `objectsToStore` equals the gate over the whole
inventory. -/
theorem displayBadHashes_trim {α : Type} (m : Int) (l : List (FileInfo α)) :
    displayBadHashes m (displayFileStats l) = displayBadHashes m l := by
  unfold displayBadHashes displayFileStats
  rw [List.countP_filter]
  have hpq : (fun a : FileInfo α => (!a.excluded && !a.hashSuccess && !a.excluded)) =
      (fun a : FileInfo α => (!a.excluded && !a.hashSuccess)) := by
    funext a
    cases a.excluded <;> cases a.hashSuccess <;> rfl
  rw [hpq]

/-- Claim C2: when, after the digest phase, the number of records with
`excluded == false && digestOk == false` reaches the configured global
maximum, the run aborts (exit 1) before any transfer: the transfer pool is
never launched and no bucket is created. -/
theorem c2_hash_gate_abort {α : Type} (cfg : RunConfig)
    (buildFileListResult : Except String (List (FileInfo α)))
    (manifestLoad : Except String (BackupFailures α)) (choice : MenuChoice)
    (statOracle : α → Option Int)
    (digestNet : FileInfo α → DigestOutcome)
    (storeNet : FileInfo α → StoreOutcome)
    (awsConfigOk : Bool) (listBucketsResult : Option (List String))
    (createBucketOk : Bool) (dateCreated : String) (inv : List (FileInfo α))
    (hdry : cfg.dryrun = false) (hrep : cfg.reprocess = false)
    (hb : buildFileListResult = .ok inv)
    (hcount : cfg.maxAllowedHashFailures ≤
      ((digestPhase digestNet inv).countP
        (fun o => !o.excluded && !o.hashSuccess) : Int)) :
    mainRun cfg buildFileListResult manifestLoad choice statOracle digestNet
      storeNet awsConfigOk listBucketsResult createBucketOk dateCreated =
      .exited 1 false false none := by
  have hgate : displayBadHashes cfg.maxAllowedHashFailures
      (displayFileStats (digestPhase digestNet inv)) = true := by
    rw [displayBadHashes_trim]
    simpa [displayBadHashes] using hcount
  simp [mainRun, hrep, hb, hdry, hgate]

/-- Witness for C2: one eligible record whose hash fails against a
configured maximum of 1 aborts the run before any AWS interaction. -/
theorem c2_hash_gate_abort_witness :
    mainRun (α := String)
      { dryrun := false, reprocess := false, noConfirm := false,
        maxAllowedHashFailures := 1, maxHashChannelErrorCount := 25,
        maxStorageChannelErrorCount := 25, storageRetryCount := 5,
        bucket := "b", dryrunBucket := "d", region := "us-east-2" }
      (.ok [{ fullName := "x", size := 1, excluded := false, hash := "",
              hashSuccess := false, storageSuccess := false }])
      (.error "unused") MenuChoice.proceed (fun _ => none)
      (fun _ => .failed) (fun _ => .untouched) true (some []) true "t" =
      .exited 1 false false none :=
  c2_hash_gate_abort _ _ _ _ _ _ _ _ _ _ _
    [{ fullName := "x", size := 1, excluded := false, hash := "",
       hashSuccess := false, storageSuccess := false }]
    rfl rfl rfl (by decide)

/-- The manifest selection loop is exactly a filter-and-copy of the
non-excluded, non-stored records. -/
theorem storageFailures_eq_filter {α : Type} :
    ∀ l : List (FileInfo α),
      storageFailures l =
        (l.filter (fun o => !o.excluded && !o.storageSuccess)).map FileInfo.copy := by
  intro l
  induction l with
  | nil => rfl
  | cons o rest ih =>
      rw [storageFailures]
      cases ho : o.excluded <;> cases hs : o.storageSuccess <;>
        simp [List.filter_cons, ho, hs, ih]

/-- Claim C3: every run that reaches the end of a non-dryrun transfer
phase hands `writeFailureFile` a manifest (even an empty one) built from
the final inventory; the manifest's entries are exactly one `Copy` —
carrying the record's path and size — per record with `excluded == false`
and `transferOk == false`, in inventory order; records with
`excluded == true` never appear; and `hasFailures` holds iff there is at
least one entry. -/
theorem c3_failure_manifest {α : Type} (cfg : RunConfig)
    (buildFileListResult : Except String (List (FileInfo α)))
    (manifestLoad : Except String (BackupFailures α)) (choice : MenuChoice)
    (statOracle : α → Option Int)
    (digestNet : FileInfo α → DigestOutcome)
    (storeNet : FileInfo α → StoreOutcome)
    (listBucketsResult : Option (List String)) (dateCreated : String)
    (inv : List (FileInfo α))
    (hdry : cfg.dryrun = false)
    (hb : (if cfg.reprocess then
        buildReprocessingList cfg.noConfirm manifestLoad choice statOracle
      else buildFileListResult) = .ok inv)
    (hne : cfg.reprocess = true → inv.isEmpty = false)
    (hgate : displayBadHashes cfg.maxAllowedHashFailures
      (displayFileStats (digestPhase digestNet inv)) = false)
    (hreg : cfg.region = "us-east-1" ∨ awsRegionKeys.contains cfg.region = true) :
    mainRun cfg buildFileListResult manifestLoad choice statOracle digestNet
        storeNet true listBucketsResult true dateCreated =
      .exited 0 true true (some (displayStorageStats cfg.bucket dateCreated
        (storePhase storeNet (digestPhase digestNet inv))))
    ∧ (∀ (l : List (FileInfo α)) (b d : String),
        (displayStorageStats b d l).failedPaths =
          (l.filter (fun o => !o.excluded && !o.storageSuccess)).map FileInfo.copy)
    ∧ (∀ (l : List (FileInfo α)) (b d : String),
        ∀ f ∈ (displayStorageStats b d l).failedPaths, f.excluded = false)
    ∧ (∀ (l : List (FileInfo α)) (b d : String),
        (displayStorageStats b d l).hasFailures =
          !(displayStorageStats b d l).failedPaths.isEmpty) := by
  have hchar : ∀ (l : List (FileInfo α)) (b d : String),
      (displayStorageStats b d l).failedPaths =
        (l.filter (fun o => !o.excluded && !o.storageSuccess)).map FileInfo.copy := by
    intro l b d
    simp [displayStorageStats, storageFailures_eq_filter]
  refine ⟨?_, hchar, ?_, ?_⟩
  · cases hr : cfg.reprocess with
    | false =>
        rw [hr] at hb
        simp only [if_false, Bool.false_eq_true] at hb
        rcases hreg with h1 | h2
        · simp [mainRun, hr, hb, hdry, hgate, h1]
        · simp [mainRun, hr, hb, hdry, hgate, h2]
          exact fun _ => List.mem_of_elem_eq_true h2
    | true =>
        rw [hr] at hb
        simp only [if_true] at hb
        have hne2 := hne hr
        rcases hreg with h1 | h2
        · simp [mainRun, hr, hb, hdry, hgate, h1, hne2]
        · simp [mainRun, hr, hb, hdry, hgate, h2, hne2]
          exact fun _ => List.mem_of_elem_eq_true h2
  · intro l b d f hf
    rw [hchar l b d] at hf
    rcases List.mem_map.mp hf with ⟨o, ho, rfl⟩
    rcases List.mem_filter.mp ho with ⟨-, hcond⟩
    have : o.excluded = false := by
      cases hoe : o.excluded
      · rfl
      · rw [hoe] at hcond; simp at hcond
    simpa [FileInfo.copy] using this
  · intro l b d
    simp [displayStorageStats]

/-- Witness for C3: a two-record inventory — one stored, one failed —
yields a manifest holding exactly the failed record's copy. -/
theorem c3_failure_manifest_witness :
    mainRun (α := String)
      { dryrun := false, reprocess := false, noConfirm := false,
        maxAllowedHashFailures := 25, maxHashChannelErrorCount := 25,
        maxStorageChannelErrorCount := 25, storageRetryCount := 5,
        bucket := "b", dryrunBucket := "d", region := "us-east-2" }
      (.ok [{ fullName := "x", size := 1, excluded := false, hash := "",
              hashSuccess := false, storageSuccess := false },
            { fullName := "y", size := 2, excluded := false, hash := "",
              hashSuccess := false, storageSuccess := false }])
      (.error "unused") MenuChoice.proceed (fun _ => none)
      (fun o => if o.fullName = "x" then .hashed "h" else .failed)
      (fun _ => .stored) true (some []) true "t" =
      .exited 0 true true (some (displayStorageStats "b" "t"
        (storePhase (fun _ => .stored)
          (digestPhase
            (fun o : FileInfo String =>
              if o.fullName = "x" then .hashed "h" else .failed)
            [{ fullName := "x", size := 1, excluded := false, hash := "",
               hashSuccess := false, storageSuccess := false },
             { fullName := "y", size := 2, excluded := false, hash := "",
               hashSuccess := false, storageSuccess := false }]))))
    ∧ (∀ (l : List (FileInfo String)) (b d : String),
        (displayStorageStats b d l).failedPaths =
          (l.filter (fun o => !o.excluded && !o.storageSuccess)).map FileInfo.copy)
    ∧ (∀ (l : List (FileInfo String)) (b d : String),
        ∀ f ∈ (displayStorageStats b d l).failedPaths, f.excluded = false)
    ∧ (∀ (l : List (FileInfo String)) (b d : String),
        (displayStorageStats b d l).hasFailures =
          !(displayStorageStats b d l).failedPaths.isEmpty) :=
  c3_failure_manifest
    { dryrun := false, reprocess := false, noConfirm := false,
      maxAllowedHashFailures := 25, maxHashChannelErrorCount := 25,
      maxStorageChannelErrorCount := 25, storageRetryCount := 5,
      bucket := "b", dryrunBucket := "d", region := "us-east-2" }
    (.ok [{ fullName := "x", size := 1, excluded := false, hash := "",
            hashSuccess := false, storageSuccess := false },
          { fullName := "y", size := 2, excluded := false, hash := "",
            hashSuccess := false, storageSuccess := false }])
    (.error "unused") MenuChoice.proceed (fun _ => none)
    (fun o => if o.fullName = "x" then .hashed "h" else .failed)
    (fun _ => .stored) (some []) "t"
    [{ fullName := "x", size := 1, excluded := false, hash := "",
       hashSuccess := false, storageSuccess := false },
     { fullName := "y", size := 2, excluded := false, hash := "",
       hashSuccess := false, storageSuccess := false }]
    rfl rfl (fun h => by cases h) (by decide) (Or.inr (by decide))

/-- Counterexample to C6 as stated: for an inventory holding one excluded
record, the digest-phase channel (loaded in `main` from the
`displayFileStats` output) is empty rather than holding every record; and
a worker handed an excluded record does not skip it — it hashes it and
sets its digest fields. -/
theorem c6_counterexample :
    hashChannelContents (displayFileStats
      [{ fullName := "x", size := 0, excluded := true, hash := "",
         hashSuccess := false, storageSuccess := false }]) =
      ([] : List (FileInfo String))
    ∧ [{ fullName := "x", size := 0, excluded := true, hash := "",
         hashSuccess := false, storageSuccess := false }] ≠
        ([] : List (FileInfo String))
    ∧ hashFilesInChannel 25 (fun _ => some "h") 0
        [{ fullName := "x", size := 0, excluded := true, hash := "",
           hashSuccess := false, storageSuccess := false }] =
      [{ fullName := "x", size := 0, excluded := true, hash := "h",
         hashSuccess := true, storageSuccess := false }] := by
  refine ⟨rfl, by decide, ?_⟩
  rw [hashFilesInChannel]
  simp [hashApply, hashFilesInChannel]

/-- Claim C6 (corrected): filtering by `excluded` happens before the digest
queue is built — `main` hands `hashAllFiles` the `displayFileStats` output,
so the channel holds exactly the `excluded == false` records — and the
workers hash every dequeued record without re-testing the flag.  Excluded
records therefore never enter the queue and are never opened or digested. -/
theorem c6_queue_prefiltered {α : Type} (inv : List (FileInfo α))
    (maxErr c : Int) (oracle : α → Option String) (fi : FileInfo α)
    (rest : List (FileInfo α)) :
    hashChannelContents (displayFileStats inv) =
      inv.filter (fun o => !o.excluded)
    ∧ (∀ gi ∈ hashChannelContents (displayFileStats inv), gi.excluded = false)
    ∧ (hashFilesInChannel maxErr oracle c (fi :: rest)).head? =
        some (hashApply oracle fi) := by
  refine ⟨rfl, ?_, ?_⟩
  · intro gi hgi
    have := List.mem_filter.mp hgi
    simpa using this.2
  · rw [hashFilesInChannel]
    split <;> rfl

/-- Witness for C6 (corrected): the queue built from a mixed inventory
holds only the non-excluded record, which the worker hashes. -/
theorem c6_queue_prefiltered_witness :
    hashChannelContents (displayFileStats
      [{ fullName := "x", size := 0, excluded := true, hash := "",
         hashSuccess := false, storageSuccess := false },
       { fullName := "y", size := 1, excluded := false, hash := "",
         hashSuccess := false, storageSuccess := false }]) =
      ([{ fullName := "x", size := 0, excluded := true, hash := "",
          hashSuccess := false, storageSuccess := false },
        { fullName := "y", size := 1, excluded := false, hash := "",
          hashSuccess := false, storageSuccess := false }] :
        List (FileInfo String)).filter (fun o => !o.excluded)
    ∧ ({ fullName := "y", size := 1, excluded := false, hash := "",
         hashSuccess := false, storageSuccess := false } :
        FileInfo String).excluded = false
    ∧ (hashFilesInChannel 25 (fun _ => some "h") 0
        [({ fullName := "y", size := 1, excluded := false, hash := "",
            hashSuccess := false, storageSuccess := false } :
          FileInfo String)]).head? =
        some (hashApply (fun _ => some "h")
          { fullName := "y", size := 1, excluded := false, hash := "",
            hashSuccess := false, storageSuccess := false }) := by
  refine ⟨?_, ?_, ?_⟩
  · exact (c6_queue_prefiltered
      [{ fullName := "x", size := 0, excluded := true, hash := "",
         hashSuccess := false, storageSuccess := false },
       { fullName := "y", size := 1, excluded := false, hash := "",
         hashSuccess := false, storageSuccess := false }]
      25 0 (fun _ => some "h")
      { fullName := "y", size := 1, excluded := false, hash := "",
        hashSuccess := false, storageSuccess := false } []).1
  · exact (c6_queue_prefiltered
      [{ fullName := "x", size := 0, excluded := true, hash := "",
         hashSuccess := false, storageSuccess := false },
       { fullName := "y", size := 1, excluded := false, hash := "",
         hashSuccess := false, storageSuccess := false }]
      25 0 (fun _ => some "h")
      { fullName := "y", size := 1, excluded := false, hash := "",
        hashSuccess := false, storageSuccess := false } []).2.1
      { fullName := "y", size := 1, excluded := false, hash := "",
        hashSuccess := false, storageSuccess := false } (by decide)
  · exact (c6_queue_prefiltered
      [{ fullName := "x", size := 0, excluded := true, hash := "",
         hashSuccess := false, storageSuccess := false },
       { fullName := "y", size := 1, excluded := false, hash := "",
         hashSuccess := false, storageSuccess := false }]
      25 0 (fun _ => some "h")
      { fullName := "y", size := 1, excluded := false, hash := "",
        hashSuccess := false, storageSuccess := false } []).2.2

/-- Claim C7: the dryrun sample loop reads `objectsList[0] … objectsList[24]`
unconditionally; with a single eligible record (and the dryrun bucket
reachable) the indexing runs past the end of the list — a runtime panic,
where the claim requires a bounded sample.  The same input drives a whole
dryrun `main` invocation into the panic. -/
theorem c7_dryrun_small_list_panics :
    handleDryrun (α := String) "dry" (some ["dry"])
      [{ fullName := "a", size := 1, excluded := false, hash := "",
         hashSuccess := false, storageSuccess := false }] =
      DryrunResult.panic
    ∧ mainRun (α := String)
        { dryrun := true, reprocess := false, noConfirm := false,
          maxAllowedHashFailures := 25, maxHashChannelErrorCount := 25,
          maxStorageChannelErrorCount := 25, storageRetryCount := 5,
          bucket := "b", dryrunBucket := "dry", region := "us-east-2" }
        (.ok [{ fullName := "a", size := 1, excluded := false, hash := "",
                hashSuccess := false, storageSuccess := false }])
        (.error "unused") MenuChoice.proceed (fun _ => none)
        (fun _ => .untouched) (fun _ => .untouched) true (some ["dry"]) true
        "t" =
      RunTrace.panicked := by
  constructor
  · decide
  · simp only [mainRun]
    decide

/-- Structural induction over `FsTree` with a membership hypothesis for
the children of a directory. -/
theorem FsTree.indOn {motive : FsTree → Prop}
    (hfile : ∀ n sz, motive (FsTree.file n sz))
    (hdir : ∀ n sz ch, (∀ c ∈ ch, motive c) → motive (FsTree.dir n sz ch)) :
    ∀ t, motive t
  | FsTree.file n sz => hfile n sz
  | FsTree.dir n sz ch =>
      hdir n sz ch (fun c _hc => FsTree.indOn hfile hdir c)
termination_by t => sizeOf t
decreasing_by
  have := List.sizeOf_lt_of_mem _hc
  simp only [FsTree.dir.sizeOf_spec]
  omega

/-- Membership in a walked forest comes from the walk of one child. -/
theorem mem_walkForest (excl : List Exclusion) (path : List String) :
    ∀ (cs : List FsTree) (r : FileInfo (List String)),
      r ∈ walkForest excl path cs ↔
        ∃ c ∈ cs, r ∈ walkFrom excl (path ++ [c.name]) c := by
  intro cs r
  induction cs with
  | nil => rw [walkForest]; simp
  | cons c cs ih => rw [walkForest]; simp [ih, or_and_right, exists_or]

/-- Every record emitted while walking the subtree rooted at `path`
carries a path extending `path`. -/
theorem walkFrom_path_extends (excl : List Exclusion) :
    ∀ (t : FsTree) (path : List String) (r : FileInfo (List String)),
      r ∈ walkFrom excl path t → ∃ s, r.fullName = path ++ s := by
  intro t
  induction t using FsTree.indOn with
  | hfile n sz =>
      intro path r hr
      rw [walkFrom] at hr
      split at hr <;> simp at hr <;> subst hr <;> exact ⟨[], by simp [mkRec]⟩
  | hdir n sz ch ih =>
      intro path r hr
      rw [walkFrom] at hr
      split at hr
      · simp at hr; subst hr; exact ⟨[], by simp [mkRec]⟩
      · rcases List.mem_cons.mp hr with h | h
        · subst h; exact ⟨[], by simp [mkRec]⟩
        · rcases (mem_walkForest excl path ch r).mp h with ⟨c, hc, hrc⟩
          rcases ih c hc (path ++ [c.name]) r hrc with ⟨s, hs⟩
          exact ⟨[c.name] ++ s, by rw [hs, List.append_assoc]⟩

/-- A head whose distinctness check passed clashes with no tail name. -/
theorem namesNodup_head {n : String} {rest : List String}
    (h : namesNodup (n :: rest) = true) :
    (∀ m ∈ rest, m ≠ n) ∧ namesNodup rest = true := by
  rw [namesNodup] at h
  simp only [Bool.and_eq_true, Bool.not_eq_true'] at h
  refine ⟨?_, h.2⟩
  intro m hm hmn
  have hany : rest.any (fun x => x == n) = true :=
    List.any_eq_true.mpr ⟨m, hm, by simp [hmn]⟩
  rw [hany] at h
  exact absurd h.1 (by simp)

/-- Under pairwise-distinct sibling names, two siblings with the same name
are the same child. -/
theorem namesNodup_mem_unique :
    ∀ (cs : List FsTree), namesNodup (cs.map FsTree.name) = true →
      ∀ c1 ∈ cs, ∀ c2 ∈ cs, c1.name = c2.name → c1 = c2 := by
  intro cs
  induction cs with
  | nil => intro _ c1 h1; cases h1
  | cons c cs ih =>
      intro h c1 h1 c2 h2 hname
      rw [List.map_cons] at h
      have hh := namesNodup_head h
      cases List.mem_cons.mp h1 with
      | inl he1 =>
          cases List.mem_cons.mp h2 with
          | inl he2 => rw [he1, he2]
          | inr he2 =>
              exfalso
              apply hh.1 c2.name (List.mem_map_of_mem FsTree.name he2)
              rw [← hname, he1]
      | inr he1 =>
          cases List.mem_cons.mp h2 with
          | inl he2 =>
              exfalso
              apply hh.1 c1.name (List.mem_map_of_mem FsTree.name he1)
              rw [hname, he2]
          | inr he2 => exact ih hh.2 c1 he1 c2 he2 hname

/-- Well-formedness of a forest passes to each member. -/
theorem wfForest_mem :
    ∀ (cs : List FsTree), wfForest cs = true → ∀ c ∈ cs, wfTree c = true := by
  intro cs
  induction cs with
  | nil => intro _ c hc; cases hc
  | cons x xs ih =>
      intro h c hc
      rw [wfForest] at h
      simp only [Bool.and_eq_true] at h
      rcases List.mem_cons.mp hc with rfl | hc
      · exact h.1
      · exact ih h.2 c hc

/-- Unfolding well-formedness at a directory. -/
theorem wfTree_dir {n : String} {sz : Int} {ch : List FsTree}
    (h : wfTree (FsTree.dir n sz ch) = true) :
    namesNodup (ch.map FsTree.name) = true ∧ wfForest ch = true := by
  rw [wfTree] at h
  simp only [Bool.and_eq_true] at h
  exact h

/-- Core pruning fact: if the tree holds, at child-name path `rest`, a
directory that `skipThisObject` excludes at its walk path, then no record
of the whole walk lies strictly below that directory's path (sibling names
must be distinct for paths to identify nodes). -/
theorem walk_skipped_subtree_absent (excl : List Exclusion) :
    ∀ (rest : List String) (t : FsTree) (base : List String)
      (nm : String) (sz : Int) (ch : List FsTree),
      wfTree t = true →
      lookupNode t rest = some (FsTree.dir nm sz ch) →
      skipThisObject excl (base ++ rest) true nm = true →
      ∀ r ∈ walkFrom excl base t,
        ¬ ∃ s, s ≠ [] ∧ r.fullName = (base ++ rest) ++ s := by
  intro rest
  induction rest with
  | nil =>
      intro t base nm sz ch _ hlook hskip r hr hex
      rcases hex with ⟨s, hsne, hs⟩
      rw [lookupNode] at hlook
      injection hlook with ht
      subst ht
      rw [List.append_nil] at hskip hs
      rw [walkFrom, if_pos hskip] at hr
      simp only [List.mem_singleton] at hr
      subst hr
      simp only [mkRec] at hs
      have hlen := congrArg List.length hs
      simp at hlen
      exact hsne hlen
  | cons a rest ih =>
      intro t base nm sz ch hwf hlook hskip r hr hex
      rcases hex with ⟨s, hsne, hs⟩
      cases t with
      | file n0 sz0 => rw [lookupNode] at hlook; cases hlook
      | dir n0 sz0 ch0 =>
          rw [lookupNode] at hlook
          cases hfind : ch0.find? (fun c => c.name == a) with
          | none => rw [hfind] at hlook; cases hlook
          | some c =>
              rw [hfind] at hlook
              have hcmem : c ∈ ch0 := List.mem_of_find?_eq_some hfind
              have hcname : c.name = a := by
                have := List.find?_some hfind
                simpa using this
              have hwfd := wfTree_dir hwf
              rw [walkFrom] at hr
              split at hr
              · simp only [List.mem_singleton] at hr
                subst hr
                simp only [mkRec] at hs
                have hlen := congrArg List.length hs
                simp at hlen
              · rcases List.mem_cons.mp hr with h | h
                · subst h
                  simp only [mkRec] at hs
                  have hlen := congrArg List.length hs
                  simp at hlen
                · rcases (mem_walkForest excl base ch0 r).mp h with ⟨c2, hc2, hrc2⟩
                  by_cases hname : c2.name = a
                  · have hceq : c2 = c :=
                      namesNodup_mem_unique ch0 hwfd.1 c2 hc2 c hcmem
                        (hname.trans hcname.symm)
                    subst hceq
                    have happ : (base ++ [a]) ++ rest = base ++ a :: rest := by
                      simp
                    refine ih c2 (base ++ [a]) nm sz ch
                      (wfForest_mem ch0 hwfd.2 c2 hcmem) hlook
                      (by rw [happ]; exact hskip) r ?_ ?_
                    · rw [hname] at hrc2; exact hrc2
                    · exact ⟨s, hsne, by rw [hs, happ]⟩
                  · rcases walkFrom_path_extends excl c2 (base ++ [c2.name]) r
                      hrc2 with ⟨s2, hs2⟩
                    have hcombine : base ++ ([c2.name] ++ s2) =
                        base ++ ([a] ++ (rest ++ s)) := by
                      rw [← List.append_assoc, ← hs2, hs]
                      simp
                    have htail := List.append_cancel_left hcombine
                    simp only [List.singleton_append, List.cons.injEq] at htail
                    exact hname htail.1

/-- A short-circuit `any` is the same as testing the rules front to back
and stopping at the first match. -/
theorem any_eq_find_isSome {β : Type} (p : β → Bool) :
    ∀ l : List β, l.any p = (l.find? p).isSome := by
  intro l
  induction l with
  | nil => rfl
  | cons x xs ih => cases hx : p x <;> simp [List.find?, hx, ih]

/-- Counterexample to C5 as stated: with no exclusion rules, walking a
base path whose root is an ordinary directory `r` containing the file `b`
yields a directory record for `r` with `excluded = true` (every directory
record keeps `Excluded: true` at walker.go:57-59, descended into or not)
while the descendant record `r/b` is present in the inventory — so an
excluded-true directory record does not imply an absent subtree. -/
theorem c5_counterexample :
    walkFrom [] ["r"] (FsTree.dir "r" 0 [FsTree.file "b" 1]) =
      [mkRec ["r"] 0 true, mkRec ["r", "b"] 1 false]
    ∧ (mkRec ["r"] 0 true).excluded = true
    ∧ (mkRec ["r", "b"] 1 false).fullName = ["r"] ++ ["b"]
    ∧ (["b"] : List String) ≠ [] := by
  refine ⟨?_, rfl, rfl, by decide⟩
  simp [walkFrom, walkForest, skipThisObject, FsTree.name, startsWithDot]

/-- Claim C5 (corrected): subtree pruning is keyed to `skipThisObject`,
not the `excluded` flag.  If the tree holds, at child path `rest`, a
directory that `skipThisObject` excludes at its walk path, then the walk
emits exactly that directory's record for the whole subtree and the
inventory holds no record strictly below its path (with distinct sibling
names).  Every directory record, pruned or descended, carries
`excluded = true`, so the flag alone implies nothing about descendants. -/
theorem c5_pruned_subtree_absent (excl : List Exclusion)
    (base rest : List String) (t : FsTree) (nm : String) (sz : Int)
    (ch : List FsTree)
    (hwf : wfTree t = true)
    (hlook : lookupNode t rest = some (FsTree.dir nm sz ch))
    (hskip : skipThisObject excl (base ++ rest) true nm = true) :
    walkFrom excl (base ++ rest) (FsTree.dir nm sz ch) =
      [mkRec (base ++ rest) sz true]
    ∧ (∀ r ∈ walkFrom excl base t,
        ¬ ∃ s, s ≠ [] ∧ r.fullName = (base ++ rest) ++ s)
    ∧ (∀ (n2 : String) (sz2 : Int) (ch2 : List FsTree) (p2 : List String),
        (walkFrom excl p2 (FsTree.dir n2 sz2 ch2)).head? =
          some (mkRec p2 sz2 true)) := by
  refine ⟨by rw [walkFrom, if_pos hskip],
    walk_skipped_subtree_absent excl rest t base nm sz ch hwf hlook hskip,
    ?_⟩
  intro n2 sz2 ch2 p2
  rw [walkFrom]
  split <;> rfl

/-- Witness for C5 (corrected): rule id 1 excludes the directory `r/x`;
its subtree collapses to one record, the record of the sibling file `r/b`
is not below `r/x`, and a directory record's head is always excluded. -/
theorem c5_pruned_subtree_absent_witness :
    walkFrom [{ id := 1, regexMatch := fun p => decide (p = ["r", "x"]) }]
        (["r"] ++ ["x"]) (FsTree.dir "x" 0 [FsTree.file "c" 1]) =
      [mkRec (["r"] ++ ["x"]) 0 true]
    ∧ (¬ ∃ s, s ≠ [] ∧
        (mkRec ["r", "b"] 1 false).fullName = ((["r"] ++ ["x"]) ++ s))
    ∧ (walkFrom [{ id := 1, regexMatch := fun p => decide (p = ["r", "x"]) }]
        ["p"] (FsTree.dir "d" 7 [])).head? = some (mkRec ["p"] 7 true) := by
  have h := c5_pruned_subtree_absent
    [{ id := 1, regexMatch := fun p => decide (p = ["r", "x"]) }]
    ["r"] ["x"]
    (FsTree.dir "r" 0 [FsTree.dir "x" 0 [FsTree.file "c" 1], FsTree.file "b" 1])
    "x" 0 [FsTree.file "c" 1]
    (by simp [wfTree, wfForest, namesNodup, FsTree.name])
    (by simp [lookupNode, List.find?, FsTree.name])
    (by simp [skipThisObject, startsWithDot])
  refine ⟨h.1, ?_, h.2.2 "d" 7 [] ["p"]⟩
  intro hex
  rcases hex with ⟨s, hsne, hs⟩
  exact h.2.1 (mkRec ["r", "b"] 1 false)
    (by simp [walkFrom, walkForest, skipThisObject, FsTree.name,
      startsWithDot, mkRec])
    ⟨s, hsne, hs⟩

/-- Claim C8: a visited directory whose name starts with a dot is excluded
by the hard-coded test regardless of the configured rules; the walk
appends its (excluded) record and does not descend, so no record below it
exists in the inventory; the dot test applies only to directories — for a
file, `skipThisObject` is exactly the first matching configured rule,
tested in stable list (id) order against the full path. -/
theorem c8_dot_dir_pruned (excl : List Exclusion)
    (base rest : List String) (t : FsTree) (nm : String) (sz : Int)
    (ch : List FsTree)
    (hdot : startsWithDot nm = true)
    (hwf : wfTree t = true)
    (hlook : lookupNode t rest = some (FsTree.dir nm sz ch)) :
    skipThisObject excl (base ++ rest) true nm = true
    ∧ walkFrom excl (base ++ rest) (FsTree.dir nm sz ch) =
        [mkRec (base ++ rest) sz true]
    ∧ (∀ r ∈ walkFrom excl base t,
        ¬ ∃ s, s ≠ [] ∧ r.fullName = (base ++ rest) ++ s)
    ∧ (∀ (n3 : String) (p3 : List String),
        skipThisObject excl p3 false n3 =
          (excl.find? (fun e => e.regexMatch p3)).isSome) := by
  have hskip : skipThisObject excl (base ++ rest) true nm = true := by
    simp [skipThisObject, hdot]
  refine ⟨hskip, by rw [walkFrom, if_pos hskip],
    walk_skipped_subtree_absent excl rest t base nm sz ch hwf hlook hskip,
    ?_⟩
  intro n3 p3
  simp only [skipThisObject, Bool.false_and, Bool.false_eq_true, if_false]
  exact any_eq_find_isSome _ excl

/-- Witness for C8: the directory `r/.git` is pruned with no rules
configured; the sibling record `r/b` is not below it; and for files the
dot test does not apply (no rules match, so no exclusion). -/
theorem c8_dot_dir_pruned_witness :
    skipThisObject [] (["r"] ++ [".git"]) true ".git" = true
    ∧ walkFrom [] (["r"] ++ [".git"]) (FsTree.dir ".git" 0 [FsTree.file "c" 1]) =
        [mkRec (["r"] ++ [".git"]) 0 true]
    ∧ (¬ ∃ s, s ≠ [] ∧
        (mkRec ["r", "b"] 1 false).fullName = ((["r"] ++ [".git"]) ++ s))
    ∧ skipThisObject [] ["p", ".hidden"] false ".hidden" =
        (List.find? (fun e : Exclusion => e.regexMatch ["p", ".hidden"])
          ([] : List Exclusion)).isSome := by
  have h := c8_dot_dir_pruned [] ["r"] [".git"]
    (FsTree.dir "r" 0
      [FsTree.dir ".git" 0 [FsTree.file "c" 1], FsTree.file "b" 1])
    ".git" 0 [FsTree.file "c" 1]
    (by decide)
    (by simp [wfTree, wfForest, namesNodup, FsTree.name])
    (by simp [lookupNode, List.find?, FsTree.name])
  refine ⟨h.1, h.2.1, ?_, h.2.2.2 ".hidden" ["p", ".hidden"]⟩
  intro hex
  rcases hex with ⟨s, hsne, hs⟩
  exact h.2.2.1 (mkRec ["r", "b"] 1 false)
    (by simp [walkFrom, walkForest, skipThisObject, FsTree.name,
      startsWithDot, mkRec])
    ⟨s, hsne, hs⟩

end Backup
